import Mathlib

/-!
# Verification of the Manamelí payment-plan calculator

Shallow embedding of the numeric core of `src/App.tsx` (the pure schedule
computation: pricing derivation, extraordinary-payment normalization,
installment/balloon reconciliation, row assembly, date projection).

JavaScript numbers are modelled as exact rationals (`ℚ`); `Math.ceil` /
`Math.floor` become `Int.ceil` / `Int.floor` on `ℚ`.  Calendar months are
modelled by their linear month index `12 * year + month0 : ℤ`, on which the
JS `Date.setUTCMonth` arithmetic of `addMonths` acts by addition.
-/

namespace Manameli

/-- Source `clamp(val, min, max) = Math.max(min, Math.min(max, val))` (App.tsx line 21). -/
def clamp (val lo hi : ℚ) : ℚ := max lo (min hi val)

/-- Source `roundCeilToMultiple(n, mult)` (App.tsx line 25): if `mult` is falsy or
non-positive, `Math.ceil(n)`, else `Math.ceil(n / mult) * mult`. -/
def roundCeilToMultiple (n mult : ℚ) : ℚ :=
  if mult ≤ 0 then (⌈n⌉ : ℚ) else ((⌈n / mult⌉ : ℤ) : ℚ) * mult

/-- Source `roundFloorToMultiple(n, mult)` (App.tsx line 29). -/
def roundFloorToMultiple (n mult : ℚ) : ℚ :=
  if mult ≤ 0 then (⌊n⌋ : ℚ) else ((⌊n / mult⌋ : ℤ) : ℚ) * mult

/-- An extraordinary-payment entry `{month, amount}` (the `id` field of the
source is a UI handle that never enters the numeric computation). -/
structure Extra where
  month : ℤ
  amount : ℚ
deriving DecidableEq

inductive RowType
  | initial
  | monthly
  | extra
  | balloon
deriving DecidableEq

/-- A schedule row `{type, label, month, amount}` (App.tsx line 305). -/
structure Row where
  type : RowType
  label : String
  month : ℤ
  amount : ℚ
deriving DecidableEq

/-- Constant `BASE_PRICE_PER_M2 = 365000` (App.tsx line 41). -/
def BASE_PRICE_PER_M2 : ℚ := 365000

/-- Source `fullPrice` (App.tsx line 268). -/
def fullPrice (area : ℚ) : ℚ := clamp area 1 1000000 * BASE_PRICE_PER_M2

/-- Source `negotiatedPrice` (App.tsx line 273). -/
def negotiatedPrice (area pricePerM2 : ℚ) : ℚ :=
  clamp area 1 1000000 * clamp pricePerM2 0 100000000

/-- Source `discountAmount` (App.tsx line 278). -/
def discountAmount (area pricePerM2 : ℚ) : ℚ :=
  max 0 (fullPrice area - negotiatedPrice area pricePerM2)

/-- Source `netPrice = negotiatedPrice` (App.tsx line 283). -/
def netPrice (area pricePerM2 : ℚ) : ℚ := negotiatedPrice area pricePerM2

/-- Source `balloonValue` (App.tsx line 286). -/
def balloonValue (netP balloonPct : ℚ) : ℚ := netP * clamp balloonPct 0 90 / 100

/-- Source `cappedInitial` (App.tsx line 290). -/
def cappedInitial (netP initialPayment : ℚ) : ℚ :=
  clamp initialPayment 0 (max 0 netP)

/-- The filter of `orderedExtras` (App.tsx line 297): keep `amount > 0 && month >= 1`. -/
def isCandidateExtra (e : Extra) : Bool :=
  decide (e.amount > 0) && decide (e.month ≥ 1)

/-- Source `orderedExtras` (App.tsx line 296): filter, then sort ascending by month.
JS `Array.prototype.sort` with comparator `a.month - b.month` is a stable
ascending sort, modelled by `List.mergeSort`. -/
def orderedExtras (extras : List Extra) : List Extra :=
  (extras.filter isCandidateExtra).mergeSort fun a b => decide (a.month ≤ b.month)

/-- Source `M = clamp(months, 1, 240)` (App.tsx line 304), on integers. -/
def Mclamp (months : ℤ) : ℤ := max 1 (min 240 months)

/-- The consumption-time filter (App.tsx line 314):
`e.amount > 0 && e.month >= 1 && e.month <= M`. -/
def isValidExtra (M : ℤ) (e : Extra) : Bool :=
  decide (e.amount > 0) && decide (e.month ≥ 1) && decide (e.month ≤ M)

/-- Source `validExtras` (App.tsx line 314). -/
def validExtras (ordExtras : List Extra) (M : ℤ) : List Extra :=
  ordExtras.filter (isValidExtra M)

/-- Source `extrasSum = validExtras.reduce((s, e) => s + e.amount, 0)` (App.tsx line 317). -/
def extrasSum (vx : List Extra) : ℚ := (vx.map Extra.amount).sum

/-- Source `baseForMonthly` (App.tsx line 320). -/
def baseForMonthly (netP cI bV eS : ℚ) : ℚ := max 0 (netP - cI - bV - eS)

/-- Source `numMonthlyPayments = Math.max(0, M - validExtras.length)` (App.tsx line 324). -/
def numMonthlyPayments (M : ℤ) (vxLen : ℕ) : ℤ := max 0 (M - vxLen)

/-- The installment/balloon reconciliation block (App.tsx lines 326-352),
returning `(monthlyInstallment, adjustedBalloon)`. -/
def reconcile (base bV : ℚ) (num : ℤ) (roundingMultiple : ℚ) : ℚ × ℚ :=
  if 0 < num then
    let raw := base / (num : ℚ)
    let candidateUp := roundCeilToMultiple raw roundingMultiple
    let totalMonthlyUp := candidateUp * (num : ℚ)
    let balloonAfterUp := bV - (totalMonthlyUp - base)
    if 0 ≤ balloonAfterUp then
      (candidateUp, balloonAfterUp)
    else
      let candidateDown := max 0 (roundFloorToMultiple raw roundingMultiple)
      let totalMonthlyDown := candidateDown * (num : ℚ)
      (candidateDown, max 0 (bV + (base - totalMonthlyDown)))
  else
    (0, bV)

/-- The month loop of the row assembly (App.tsx lines 365-385).  The source
looks month `m` up in `groupByPolyfill(validExtras, e => e.month)`, which is
exactly the sublist of `validExtras` whose month is `m`, in order. -/
def monthRows (vx : List Extra) (mi : ℚ) (M : ℤ) : List Row :=
  (List.range M.toNat).flatMap fun i =>
    let m : ℤ := (i : ℤ) + 1
    let lst := vx.filter fun e => decide (e.month = m)
    if lst.isEmpty then
      [⟨RowType.monthly, s!"Cuota mensual {m}", m, mi⟩]
    else
      lst.map fun ex => ⟨RowType.extra, s!"Extraordinaria (mes {m})", m, ex.amount⟩

/-- Source `schedule` (App.tsx lines 303-403): initial row, then months `1..M`
(extras replace the monthly installment), then the balloon row. -/
def schedule (netP cI bV : ℚ) (months : ℤ) (ordExtras : List Extra)
    (roundingMultiple : ℚ) : List Row :=
  let M := Mclamp months
  let vx := validExtras ordExtras M
  let r := reconcile (baseForMonthly netP cI bV (extrasSum vx)) bV
    (numMonthlyPayments M vx.length) roundingMultiple
  ⟨RowType.initial, "Cuota inicial", 0, cI⟩ ::
    (monthRows vx r.1 M ++ [⟨RowType.balloon, "Última cuota (balloon)", M + 1, r.2⟩])

/-- Category totals (App.tsx lines 405-416). -/
structure Totals where
  monthlyTotal : ℚ
  extrasTotal : ℚ
  initial : ℚ
  balloon : ℚ
  grand : ℚ
deriving DecidableEq

/-- Source `totals` (App.tsx lines 405-416). -/
def totals (rows : List Row) : Totals :=
  let monthlyTotal :=
    ((rows.filter fun r => decide (r.type = RowType.monthly)).map Row.amount).sum
  let extrasTotal :=
    ((rows.filter fun r => decide (r.type = RowType.extra)).map Row.amount).sum
  let initial :=
    ((rows.find? fun r => decide (r.type = RowType.initial)).map Row.amount).getD 0
  let balloon :=
    ((rows.find? fun r => decide (r.type = RowType.balloon)).map Row.amount).getD 0
  ⟨monthlyTotal, extrasTotal, initial, balloon,
    initial + monthlyTotal + extrasTotal + balloon⟩

/-- Source `addMonths` (App.tsx line 65) on linear month indices: `setUTCMonth`
normalizes the overflowed month, i.e. adds to the index `12 * year + month0`. -/
def addMonths (d k : ℤ) : ℤ := d + k

/-- Source `scheduleWithDates` (App.tsx lines 419-426): each row gets the date
`addMonths(base, Math.max(0, r.month - 1))`. -/
def scheduleWithDates (rows : List Row) (base : ℤ) : List (Row × ℤ) :=
  rows.map fun r => (r, addMonths base (max 0 (r.month - 1)))

/-- The shape of the monthly row the loop emits for loop index `i` (month `i+1`). -/
def monthlyRowAt (mi : ℚ) (i : ℕ) : Row :=
  ⟨RowType.monthly, s!"Cuota mensual {((i:ℤ)+1)}", (i:ℤ)+1, mi⟩

/-- The round-up candidate as worded by the spec (§4.3 step 6): `raw` rounded
up to the nearest multiple of the granularity, or the ceiling to the currency
unit when the granularity is not positive. -/
def specCandidateUp (raw mult : ℚ) : ℚ :=
  if 0 < mult then ((⌈raw / mult⌉ : ℤ) : ℚ) * mult else ((⌈raw⌉ : ℤ) : ℚ)

/-- The round-down candidate as worded by the spec (§4.3 step 6, else branch):
`max(0, raw rounded down to the nearest multiple of the granularity)`. -/
def specCandidateDown (raw mult : ℚ) : ℚ :=
  max 0 (if 0 < mult then ((⌊raw / mult⌋ : ℤ) : ℚ) * mult else ((⌊raw⌋ : ℤ) : ℚ))

/-- The caller-supplied inputs of one computation (spec §3 `PlanInputs`). -/
structure PlanInputs where
  area : ℚ
  pricePerM2 : ℚ
  months : ℤ
  balloonPct : ℚ
  initialPayment : ℚ
  roundingMultiple : ℚ
  extras : List Extra

/-- The whole pipeline as wired in the component (App.tsx lines 268-403):
pricing derivation feeding the schedule builder. -/
def computePlan (p : PlanInputs) : List Row :=
  schedule (netPrice p.area p.pricePerM2)
    (cappedInitial (netPrice p.area p.pricePerM2) p.initialPayment)
    (balloonValue (netPrice p.area p.pricePerM2) p.balloonPct)
    p.months (orderedExtras p.extras) p.roundingMultiple

/-! ## General lemmas about the embedded operations -/

theorem clamp_nonneg (val hi : ℚ) : 0 ≤ clamp val 0 hi := le_max_left 0 _

theorem netPrice_nonneg (area pricePerM2 : ℚ) : 0 ≤ netPrice area pricePerM2 := by
  have h1 : (0:ℚ) ≤ clamp area 1 1000000 := le_trans zero_le_one (le_max_left _ _)
  have h2 : (0:ℚ) ≤ clamp pricePerM2 0 100000000 := le_max_left _ _
  exact mul_nonneg h1 h2

theorem balloonValue_nonneg {netP : ℚ} (h : 0 ≤ netP) (balloonPct : ℚ) :
    0 ≤ balloonValue netP balloonPct := by
  have h2 : (0:ℚ) ≤ clamp balloonPct 0 90 := le_max_left _ _
  have := mul_nonneg h h2
  simpa [balloonValue] using div_nonneg this (by norm_num)

theorem cappedInitial_nonneg (netP initialPayment : ℚ) :
    0 ≤ cappedInitial netP initialPayment := le_max_left _ _

theorem roundCeilToMultiple_pos_eq {mult : ℚ} (n : ℚ) (hm : 0 < mult) :
    roundCeilToMultiple n mult = ((⌈n / mult⌉ : ℤ) : ℚ) * mult := by
  rw [roundCeilToMultiple, if_neg (not_le.mpr hm)]

theorem roundFloorToMultiple_pos_eq {mult : ℚ} (n : ℚ) (hm : 0 < mult) :
    roundFloorToMultiple n mult = ((⌊n / mult⌋ : ℤ) : ℚ) * mult := by
  rw [roundFloorToMultiple, if_neg (not_le.mpr hm)]

theorem roundCeilToMultiple_nonneg {n : ℚ} (mult : ℚ) (hn : 0 ≤ n) :
    0 ≤ roundCeilToMultiple n mult := by
  rw [roundCeilToMultiple]
  split
  · exact_mod_cast Int.ceil_nonneg hn
  · next hm =>
    push_neg at hm
    have h1 : (0:ℚ) ≤ n / mult := div_nonneg hn hm.le
    have h2 : (0:ℚ) ≤ ((⌈n / mult⌉ : ℤ) : ℚ) := by exact_mod_cast Int.ceil_nonneg h1
    exact mul_nonneg h2 hm.le

theorem reconcile_nonneg {base bV : ℚ} (num : ℤ) (mult : ℚ)
    (hb : 0 ≤ base) (hv : 0 ≤ bV) :
    0 ≤ (reconcile base bV num mult).1 ∧ 0 ≤ (reconcile base bV num mult).2 := by
  simp only [reconcile]
  split
  · next hnum =>
    have hnumQ : (0:ℚ) ≤ (num : ℚ) := by exact_mod_cast hnum.le
    have hraw : 0 ≤ base / (num : ℚ) := div_nonneg hb hnumQ
    split
    · next hba => exact ⟨roundCeilToMultiple_nonneg mult hraw, hba⟩
    · exact ⟨le_max_left _ _, le_max_left _ _⟩
  · exact ⟨le_refl 0, hv⟩

theorem reconcile_of_nonpos {num : ℤ} (base bV mult : ℚ) (h : ¬ 0 < num) :
    reconcile base bV num mult = (0, bV) := by
  rw [reconcile, if_neg h]

theorem reconcile_fst_multiple {mult : ℚ} (base bV : ℚ) (num : ℤ) (hm : 0 < mult) :
    ∃ k : ℤ, (reconcile base bV num mult).1 = (k : ℚ) * mult := by
  simp only [reconcile]
  split
  · split
    · exact ⟨⌈base / (num : ℚ) / mult⌉, by
        simp [roundCeilToMultiple_pos_eq _ hm]⟩
    · rcases le_or_lt 0 (roundFloorToMultiple (base / (num : ℚ)) mult) with h0 | h0
      · refine ⟨⌊base / (num : ℚ) / mult⌋, ?_⟩
        simp only [roundFloorToMultiple_pos_eq _ hm] at h0 ⊢
        simp [max_eq_right h0]
      · refine ⟨0, ?_⟩
        simp [max_eq_left h0.le]
  · exact ⟨0, by simp⟩

/-- Every row emitted by the month loop lies in a month of `1..M` and is
either a monthly row carrying the installment or an extra row carrying the
amount of a matching valid entry. -/
theorem mem_monthRows {vx : List Extra} {mi : ℚ} {M : ℤ} {r : Row}
    (h : r ∈ monthRows vx mi M) :
    (1 ≤ r.month ∧ r.month ≤ M) ∧
      ((r.type = RowType.monthly ∧ r.amount = mi) ∨
        (r.type = RowType.extra ∧
          ∃ e ∈ vx, e.month = r.month ∧ e.amount = r.amount)) := by
  rw [monthRows, List.mem_flatMap] at h
  obtain ⟨i, hi, hr⟩ := h
  rw [List.mem_range] at hi
  have hiM : ((i : ℤ) + 1) ≤ M := by
    have := Int.lt_toNat.mp hi
    omega
  simp only at hr
  split at hr
  · rw [List.mem_singleton] at hr
    subst hr
    refine ⟨⟨?_, ?_⟩, Or.inl ⟨rfl, rfl⟩⟩
    · show (1:ℤ) ≤ (i:ℤ) + 1
      omega
    · show (i:ℤ) + 1 ≤ M
      exact hiM
  · rw [List.mem_map] at hr
    obtain ⟨ex, hex, rfl⟩ := hr
    rw [List.mem_filter] at hex
    have hexm : ex.month = (i:ℤ) + 1 := by simpa using hex.2
    refine ⟨⟨?_, ?_⟩, Or.inr ⟨rfl, ex, hex.1, ?_, rfl⟩⟩
    · show (1:ℤ) ≤ (i:ℤ) + 1
      omega
    · show (i:ℤ) + 1 ≤ M
      exact hiM
    · show ex.month = (i:ℤ) + 1
      exact hexm

/-- Case analysis of membership in `schedule`. -/
theorem mem_schedule {netP cI bV : ℚ} {months : ℤ} {ord : List Extra} {mult : ℚ}
    {r : Row} (h : r ∈ schedule netP cI bV months ord mult) :
    r = ⟨RowType.initial, "Cuota inicial", 0, cI⟩ ∨
      r ∈ monthRows (validExtras ord (Mclamp months))
        (reconcile
          (baseForMonthly netP cI bV (extrasSum (validExtras ord (Mclamp months)))) bV
          (numMonthlyPayments (Mclamp months) (validExtras ord (Mclamp months)).length)
          mult).1 (Mclamp months) ∨
      r = ⟨RowType.balloon, "Última cuota (balloon)", Mclamp months + 1,
        (reconcile
          (baseForMonthly netP cI bV (extrasSum (validExtras ord (Mclamp months)))) bV
          (numMonthlyPayments (Mclamp months) (validExtras ord (Mclamp months)).length)
          mult).2⟩ := by
  rw [schedule] at h
  simp only [List.mem_cons, List.mem_append, List.mem_singleton] at h
  tauto

theorem countP_flatMap {α β : Type} (l : List α) (f : α → List β) (p : β → Bool) :
    (l.flatMap f).countP p = (l.map fun a => (f a).countP p).sum := by
  induction l with
  | nil => rfl
  | cons a l ih => simp [List.flatMap_cons, List.countP_append, ih]

theorem sum_map_range_single {n j : ℕ} {g : ℕ → ℕ} (hj : j < n)
    (h0 : ∀ i, i < n → i ≠ j → g i = 0) :
    ((List.range n).map g).sum = g j := by
  induction n with
  | zero => omega
  | succ n ih =>
    rw [List.range_succ, List.map_append, List.sum_append]
    rcases Nat.lt_succ_iff_lt_or_eq.mp hj with h | rfl
    · rw [ih h fun i hi hij => h0 i (Nat.lt_succ_of_lt hi) hij]
      have hgn : g n = 0 := h0 n (Nat.lt_succ_self n) (by omega)
      simp [hgn]
    · have hz : ((List.range j).map g).sum = 0 := by
        apply List.sum_eq_zero
        intro x hx
        rw [List.mem_map] at hx
        obtain ⟨i, hi, rfl⟩ := hx
        rw [List.mem_range] at hi
        exact h0 i (Nat.lt_succ_of_lt hi) (Nat.ne_of_lt hi)
      simp [hz]

/-- The month loop contributes, at a month `m` in range, exactly the rows the
source emits for `m`: the single monthly row if no valid extra targets `m`,
otherwise one extra row per matching entry. -/
theorem countP_monthRows_of_month {vx : List Extra} {mi : ℚ} {M m : ℤ}
    (p : Row → Bool) (hp : ∀ r, p r = true → r.month = m)
    (h1 : 1 ≤ m) (h2 : m ≤ M) :
    (monthRows vx mi M).countP p =
      if (vx.filter fun e => decide (e.month = m)).isEmpty then
        List.countP p [⟨RowType.monthly, s!"Cuota mensual {m}", m, mi⟩]
      else
        List.countP p ((vx.filter fun e => decide (e.month = m)).map
          fun ex => ⟨RowType.extra, s!"Extraordinaria (mes {m})", m, ex.amount⟩) := by
  rw [monthRows, countP_flatMap]
  have hjM : (m - 1).toNat < M.toNat := by omega
  have hjm : (((m - 1).toNat : ℤ)) + 1 = m := by omega
  refine (sum_map_range_single hjM ?_).trans ?_
  · intro i hi hij
    apply List.countP_eq_zero.mpr
    intro r hr hpr
    have hrm : r.month = (i : ℤ) + 1 := by
      simp only at hr
      split at hr
      · rw [List.mem_singleton] at hr
        subst hr
        rfl
      · rw [List.mem_map] at hr
        obtain ⟨ex, _, rfl⟩ := hr
        rfl
    have hm' := hp r hpr
    rw [hrm] at hm'
    omega
  · simp only [hjm]
    rw [apply_ite (List.countP p)]

theorem countP_monthRows_monthly {vx : List Extra} {mi : ℚ} {M m : ℤ}
    (h1 : 1 ≤ m) (h2 : m ≤ M) :
    (monthRows vx mi M).countP
        (fun r => decide (r.type = RowType.monthly) && decide (r.month = m)) =
      if (vx.filter fun e => decide (e.month = m)).isEmpty then 1 else 0 := by
  rw [countP_monthRows_of_month _ ?hp h1 h2]
  case hp =>
    intro r hpr
    simp only [Bool.and_eq_true, decide_eq_true_eq] at hpr
    exact hpr.2
  split
  · simp
  · rw [List.countP_eq_zero]
    intro r hr
    rw [List.mem_map] at hr
    obtain ⟨ex, _, rfl⟩ := hr
    simp

theorem countP_monthRows_extra {vx : List Extra} {mi : ℚ} {M m : ℤ}
    (h1 : 1 ≤ m) (h2 : m ≤ M) :
    (monthRows vx mi M).countP
        (fun r => decide (r.type = RowType.extra) && decide (r.month = m)) =
      vx.countP fun e => decide (e.month = m) := by
  rw [countP_monthRows_of_month _ ?hp h1 h2]
  case hp =>
    intro r hpr
    simp only [Bool.and_eq_true, decide_eq_true_eq] at hpr
    exact hpr.2
  split
  · next hemp =>
    rw [List.isEmpty_iff] at hemp
    have hc : (vx.countP fun e => decide (e.month = m)) = 0 := by
      rw [List.countP_eq_length_filter, hemp]
      rfl
    simp [hc]
  · rw [List.countP_map]
    have hcomp : ((fun r => decide (r.type = RowType.extra) && decide (r.month = m)) ∘
        fun ex : Extra => (⟨RowType.extra, s!"Extraordinaria (mes {m})", m, ex.amount⟩ : Row)) =
        fun _ => true := by
      funext ex
      simp
    rw [hcomp, List.countP_true, ← List.countP_eq_length_filter]

/-- Monthly-row count of the whole schedule at a month `m` in `1..M`. -/
theorem countP_schedule_monthly_at {netP cI bV : ℚ} {months : ℤ} {ord : List Extra}
    {mult : ℚ} {m : ℤ} (h1 : 1 ≤ m) (h2 : m ≤ Mclamp months) :
    (schedule netP cI bV months ord mult).countP
        (fun r => decide (r.type = RowType.monthly) && decide (r.month = m)) =
      if ((validExtras ord (Mclamp months)).filter fun e =>
          decide (e.month = m)).isEmpty then 1 else 0 := by
  simp only [schedule, List.countP_cons, List.countP_append]
  rw [countP_monthRows_monthly h1 h2]
  simp

/-- Extra-row count of the whole schedule at a month `m` in `1..M`. -/
theorem countP_schedule_extra_at {netP cI bV : ℚ} {months : ℤ} {ord : List Extra}
    {mult : ℚ} {m : ℤ} (h1 : 1 ≤ m) (h2 : m ≤ Mclamp months) :
    (schedule netP cI bV months ord mult).countP
        (fun r => decide (r.type = RowType.extra) && decide (r.month = m)) =
      (validExtras ord (Mclamp months)).countP fun e => decide (e.month = m) := by
  simp only [schedule, List.countP_cons, List.countP_append]
  rw [countP_monthRows_extra h1 h2]
  simp

/-! ## The no-extras special shape of the schedule -/

theorem validExtras_nil (M : ℤ) : validExtras [] M = [] := rfl

theorem extrasSum_nil : extrasSum [] = 0 := rfl

theorem orderedExtras_nil : orderedExtras [] = [] := by
  simp [orderedExtras]

theorem flatMap_singleton_eq_map {α β : Type} (l : List α) (f : α → β) :
    (l.flatMap fun a => [f a]) = l.map f := by
  induction l with
  | nil => rfl
  | cons a l ih => simp [List.flatMap_cons, ih]

theorem monthRows_nil (mi : ℚ) (M : ℤ) :
    monthRows [] mi M = (List.range M.toNat).map (monthlyRowAt mi) := by
  rw [monthRows]
  simp only [List.filter_nil, List.isEmpty_nil, if_pos]
  exact flatMap_singleton_eq_map _ _

theorem schedule_nil (netP cI bV : ℚ) (months : ℤ) (mult : ℚ) :
    schedule netP cI bV months [] mult =
      ⟨RowType.initial, "Cuota inicial", 0, cI⟩ ::
        ((List.range (Mclamp months).toNat).map
          (monthlyRowAt
            (reconcile (baseForMonthly netP cI bV 0) bV
              (numMonthlyPayments (Mclamp months) 0) mult).1) ++
          [⟨RowType.balloon, "Última cuota (balloon)", Mclamp months + 1,
            (reconcile (baseForMonthly netP cI bV 0) bV
              (numMonthlyPayments (Mclamp months) 0) mult).2⟩]) := by
  simp only [schedule, validExtras_nil, extrasSum_nil, monthRows_nil, List.length_nil]

/-- With no extraordinary entries the totals are
`(M·installment, 0, cappedInitial, adjustedBalloon, grand)`. -/
theorem totals_schedule_nil (netP cI bV : ℚ) (months : ℤ) (mult : ℚ) :
    totals (schedule netP cI bV months [] mult) =
      ⟨(((Mclamp months).toNat : ℚ)) *
          (reconcile (baseForMonthly netP cI bV 0) bV
            (numMonthlyPayments (Mclamp months) 0) mult).1,
        0, cI,
        (reconcile (baseForMonthly netP cI bV 0) bV
          (numMonthlyPayments (Mclamp months) 0) mult).2,
        cI + ((Mclamp months).toNat : ℚ) *
            (reconcile (baseForMonthly netP cI bV 0) bV
              (numMonthlyPayments (Mclamp months) 0) mult).1 + 0 +
          (reconcile (baseForMonthly netP cI bV 0) bV
            (numMonthlyPayments (Mclamp months) 0) mult).2⟩ := by
  rw [totals, schedule_nil]
  set mi := (reconcile (baseForMonthly netP cI bV 0) bV
    (numMonthlyPayments (Mclamp months) 0) mult).1 with hmi
  set ab := (reconcile (baseForMonthly netP cI bV 0) bV
    (numMonthlyPayments (Mclamp months) 0) mult).2 with hab
  set n := (Mclamp months).toNat with hn
  have hA : ((((⟨RowType.initial, "Cuota inicial", 0, cI⟩ : Row) ::
      ((List.range n).map (monthlyRowAt mi) ++
        [⟨RowType.balloon, "Última cuota (balloon)", Mclamp months + 1, ab⟩])).filter
          fun r => decide (r.type = RowType.monthly)).map Row.amount).sum =
      (n : ℚ) * mi := by
    simp [List.filter_cons, List.filter_append, List.filter_map, monthlyRowAt,
      Function.comp_def, List.map_const', List.sum_replicate, nsmul_eq_mul]
  have hB : ((((⟨RowType.initial, "Cuota inicial", 0, cI⟩ : Row) ::
      ((List.range n).map (monthlyRowAt mi) ++
        [⟨RowType.balloon, "Última cuota (balloon)", Mclamp months + 1, ab⟩])).filter
          fun r => decide (r.type = RowType.extra)).map Row.amount).sum = 0 := by
    simp [List.filter_cons, List.filter_append, List.filter_map, monthlyRowAt,
      Function.comp_def]
  have hC : (((((⟨RowType.initial, "Cuota inicial", 0, cI⟩ : Row) ::
      ((List.range n).map (monthlyRowAt mi) ++
        [⟨RowType.balloon, "Última cuota (balloon)", Mclamp months + 1, ab⟩])).find?
          fun r => decide (r.type = RowType.initial)).map Row.amount).getD 0) = cI := by
    simp [List.find?_cons]
  have hD : (((((⟨RowType.initial, "Cuota inicial", 0, cI⟩ : Row) ::
      ((List.range n).map (monthlyRowAt mi) ++
        [⟨RowType.balloon, "Última cuota (balloon)", Mclamp months + 1, ab⟩])).find?
          fun r => decide (r.type = RowType.balloon)).map Row.amount).getD 0) = ab := by
    have h1 : ((List.range n).map (monthlyRowAt mi)).find?
        (fun r => decide (r.type = RowType.balloon)) = none := by
      rw [List.find?_eq_none]
      intro x hx
      rw [List.mem_map] at hx
      obtain ⟨i, _, rfl⟩ := hx
      simp [monthlyRowAt]
    simp [List.find?_cons, List.find?_append, h1]
  rw [hA, hB, hC, hD]

/-! ## Concrete evaluations of the reconciliation step -/

theorem reconcile_scenarioA : reconcile 111250000 43750000 36 0 = (3090278, 43749992) := by
  have hc : (⌈(111250000:ℚ) / ((36:ℤ):ℚ)⌉) = 3090278 := by
    rw [show ((36:ℤ):ℚ) = 36 by norm_num, Int.ceil_eq_iff]
    norm_num
  simp only [reconcile]
  rw [if_pos (by norm_num : (0:ℤ) < 36), roundCeilToMultiple,
    if_pos (le_refl (0:ℚ)), hc]
  norm_num

theorem reconcile_zero_base : reconcile 0 50 1 0 = (0, 50) := by
  have hc : (⌈(0:ℚ) / ((1:ℤ):ℚ)⌉) = 0 := by
    rw [show ((1:ℤ):ℚ) = 1 by norm_num, Int.ceil_eq_iff]
    norm_num
  simp only [reconcile]
  rw [if_pos (by norm_num : (0:ℤ) < 1), roundCeilToMultiple,
    if_pos (le_refl (0:ℚ)), hc]
  norm_num

theorem reconcile_halves : reconcile 100 0 2 0 = (50, 0) := by
  have hc : (⌈(100:ℚ) / ((2:ℤ):ℚ)⌉) = 50 := by
    rw [show ((2:ℤ):ℚ) = 2 by norm_num, Int.ceil_eq_iff]
    norm_num
  simp only [reconcile]
  rw [if_pos (by norm_num : (0:ℤ) < 2), roundCeilToMultiple,
    if_pos (le_refl (0:ℚ)), hc]
  norm_num

theorem reconcile_gran7 : reconcile 100 0 1 7 = (98, 2) := by
  have hceil : (⌈(100:ℚ) / ((1:ℤ):ℚ) / 7⌉) = 15 := by
    rw [show ((1:ℤ):ℚ) = 1 by norm_num, Int.ceil_eq_iff]
    norm_num
  have hfloor : (⌊(100:ℚ) / ((1:ℤ):ℚ) / 7⌋) = 14 := by
    rw [show ((1:ℤ):ℚ) = 1 by norm_num, Int.floor_eq_iff]
    norm_num
  simp only [reconcile]
  rw [if_pos (by norm_num : (0:ℤ) < 1), roundCeilToMultiple,
    if_neg (by norm_num : ¬ (7:ℚ) ≤ 0), hceil, roundFloorToMultiple,
    if_neg (by norm_num : ¬ (7:ℚ) ≤ 0), hfloor]
  norm_num [max_def]

theorem isCandidateExtra_eval {month : ℤ} {amount : ℚ}
    (h1 : 0 < amount) (h2 : 1 ≤ month) :
    isCandidateExtra ⟨month, amount⟩ = true := by
  simp only [isCandidateExtra, Bool.and_eq_true, decide_eq_true_eq]
  exact ⟨h1, h2⟩

theorem isValidExtra_eval {M month : ℤ} {amount : ℚ}
    (h1 : 0 < amount) (h2 : 1 ≤ month) (h3 : month ≤ M) :
    isValidExtra M ⟨month, amount⟩ = true := by
  simp only [isValidExtra, Bool.and_eq_true, decide_eq_true_eq]
  exact ⟨⟨h1, h2⟩, h3⟩

/-- Type determines month shape for every schedule row. -/
theorem schedule_row_fields {netP cI bV : ℚ} {months : ℤ} {ord : List Extra}
    {mult : ℚ} {r : Row} (h : r ∈ schedule netP cI bV months ord mult) :
    (r.type = RowType.initial → r.month = 0) ∧
    (r.type = RowType.monthly → 1 ≤ r.month ∧ r.month ≤ Mclamp months) ∧
    (r.type = RowType.extra → 1 ≤ r.month ∧ r.month ≤ Mclamp months) ∧
    (r.type = RowType.balloon → r.month = Mclamp months + 1) := by
  rcases mem_schedule h with h1 | h1 | h1
  · subst h1
    refine ⟨fun _ => rfl, fun hh => ?_, fun hh => ?_, fun hh => ?_⟩ <;> simp at hh
  · obtain ⟨hb, h2⟩ := mem_monthRows h1
    rcases h2 with ⟨hty, _⟩ | ⟨hty, _⟩ <;>
      refine ⟨fun hh => ?_, fun hh => ?_, fun hh => ?_, fun hh => ?_⟩ <;>
        first
          | exact hb
          | (rw [hty] at hh; simp at hh)
  · subst h1
    refine ⟨fun hh => ?_, fun hh => ?_, fun hh => ?_, fun _ => rfl⟩ <;> simp at hh

/-! ## Pipeline evaluations at concrete inputs -/

theorem netPrice_1_100 : netPrice 1 100 = 100 := by
  norm_num [netPrice, negotiatedPrice, clamp, min_def, max_def]

/-- The over-allocated input: `initialPayment` equal to the whole net price
together with a 50% balloon. -/
theorem computePlan_bug_eq :
    computePlan ⟨1, 100, 1, 50, 100, 0, []⟩ = schedule 100 100 50 1 [] 0 := by
  simp only [computePlan, orderedExtras_nil]
  rw [netPrice_1_100]
  rw [show cappedInitial 100 100 = 100 by
    norm_num [cappedInitial, clamp, min_def, max_def]]
  rw [show balloonValue 100 50 = 50 by
    norm_num [balloonValue, clamp, min_def, max_def]]

/-- The two-month no-extras input used for the date-projection analysis. -/
theorem computePlan_dates_eq :
    computePlan ⟨1, 100, 2, 0, 0, 0, []⟩ =
      [⟨RowType.initial, "Cuota inicial", 0, 0⟩,
        monthlyRowAt 50 0, monthlyRowAt 50 1,
        ⟨RowType.balloon, "Última cuota (balloon)", 3, 0⟩] := by
  simp only [computePlan, orderedExtras_nil]
  rw [netPrice_1_100]
  rw [show cappedInitial 100 0 = 0 by
    norm_num [cappedInitial, clamp, min_def, max_def]]
  rw [show balloonValue 100 0 = 0 by
    norm_num [balloonValue, clamp, min_def, max_def]]
  rw [schedule_nil]
  rw [show baseForMonthly 100 0 0 0 = 100 by norm_num [baseForMonthly, max_def]]
  rw [show Mclamp 2 = 2 by decide]
  rw [show numMonthlyPayments 2 0 = 2 by decide]
  rw [reconcile_halves]
  rfl

/-- Evaluation of the whole plan at the one-month, granularity-7 input:
the round-down branch fires (`⌈100/7⌉·7 = 105` would push the balloon to
`−5`), giving installment 98 and balloon 2. -/
theorem computePlan_p7_eq :
    computePlan ⟨1, 100, 1, 0, 0, 7, []⟩ =
      [⟨RowType.initial, "Cuota inicial", 0, 0⟩, monthlyRowAt 98 0,
        ⟨RowType.balloon, "Última cuota (balloon)", 2, 2⟩] := by
  simp only [computePlan, orderedExtras_nil]
  rw [netPrice_1_100]
  rw [show cappedInitial 100 0 = 0 by
    norm_num [cappedInitial, clamp, min_def, max_def]]
  rw [show balloonValue 100 0 = 0 by
    norm_num [balloonValue, clamp, min_def, max_def]]
  rw [schedule_nil]
  rw [show baseForMonthly 100 0 0 0 = 100 by norm_num [baseForMonthly, max_def]]
  rw [show Mclamp 1 = 1 by decide]
  rw [show numMonthlyPayments 1 0 = 1 by decide]
  rw [reconcile_gran7]
  rfl

theorem orderedExtras_single : orderedExtras [⟨2, 5⟩] = [⟨2, 5⟩] := by
  rw [orderedExtras]
  rw [show ([⟨2, 5⟩] : List Extra).filter isCandidateExtra = [⟨2, 5⟩] from by
    rw [List.filter_eq_self]
    intro e he
    rcases List.mem_cons.mp he with rfl | he2
    · exact isCandidateExtra_eval (by norm_num) (by norm_num)
    · simp at he2]
  exact List.mergeSort_singleton _

theorem validExtras_single : validExtras [⟨2, 5⟩] (Mclamp 3) = [⟨2, 5⟩] := by
  rw [validExtras, List.filter_eq_self]
  intro e he
  rcases List.mem_cons.mp he with rfl | he2
  · exact isValidExtra_eval (by norm_num) (by norm_num) (by decide)
  · simp at he2

/-! ## The claims -/

/-- C2: when `numMonthlyPayments > 0` the algorithm rounds
`raw = baseForMonthly / numMonthlyPayments` up to the nearest multiple of the
granularity (plain ceiling when the granularity is 0), shrinks the balloon by
the surplus, accepts exactly when the shrunk balloon is `≥ 0`, and otherwise
sets `monthlyInstallment = max(0, raw rounded down)` and
`adjustedBalloon = max(0, balloonTarget + shortfall)`. -/
theorem C2_reconcile_tiebreak (base bV mult : ℚ) (num : ℤ) (h : 0 < num) :
    reconcile base bV num mult =
      if 0 ≤ bV - (specCandidateUp (base / (num:ℚ)) mult * (num:ℚ) - base) then
        (specCandidateUp (base / (num:ℚ)) mult,
          bV - (specCandidateUp (base / (num:ℚ)) mult * (num:ℚ) - base))
      else
        (specCandidateDown (base / (num:ℚ)) mult,
          max 0 (bV + (base - specCandidateDown (base / (num:ℚ)) mult * (num:ℚ)))) := by
  simp only [reconcile, specCandidateUp, specCandidateDown,
    roundCeilToMultiple, roundFloorToMultiple, if_pos h]
  rcases le_or_lt mult 0 with hm | hm
  · simp only [if_pos hm, if_neg (not_lt.mpr hm)]
  · simp only [if_neg (not_le.mpr hm), if_pos hm]

/-- Witness for C2 at Scenario A's reconciliation inputs. -/
theorem C2_reconcile_tiebreak_witness :
    reconcile 111250000 43750000 36 0 =
      if 0 ≤ 43750000 -
          (specCandidateUp (111250000 / ((36:ℤ):ℚ)) 0 * ((36:ℤ):ℚ) - 111250000) then
        (specCandidateUp (111250000 / ((36:ℤ):ℚ)) 0,
          43750000 -
            (specCandidateUp (111250000 / ((36:ℤ):ℚ)) 0 * ((36:ℤ):ℚ) - 111250000))
      else
        (specCandidateDown (111250000 / ((36:ℤ):ℚ)) 0,
          max 0 (43750000 +
            (111250000 - specCandidateDown (111250000 / ((36:ℤ):ℚ)) 0 * ((36:ℤ):ℚ)))) :=
  C2_reconcile_tiebreak 111250000 43750000 0 36 (by norm_num)

/-- C3: with positive granularity, every "monthly" row amount is an exact
multiple of the granularity, in both rounding branches. -/
theorem C3_rounding_conformance (p : PlanInputs) (h : 0 < p.roundingMultiple) :
    ∀ r ∈ computePlan p, r.type = RowType.monthly →
      ∃ k : ℤ, r.amount = (k : ℚ) * p.roundingMultiple := by
  intro r hr hm
  simp only [computePlan] at hr
  rcases mem_schedule hr with h1 | h1 | h1
  · subst h1
    simp at hm
  · obtain ⟨_, h2⟩ := mem_monthRows h1
    rcases h2 with ⟨_, hamt⟩ | ⟨hty, _⟩
    · rw [hamt]
      exact reconcile_fst_multiple _ _ _ h
    · rw [hty] at hm
      simp at hm
  · subst h1
    simp at hm

/-- Witness for C3: the monthly row of the granularity-7 one-month plan
carries 98 = 14 · 7. -/
theorem C3_rounding_conformance_witness :
    ∃ k : ℤ, (monthlyRowAt 98 0).amount = (k : ℚ) * 7 :=
  C3_rounding_conformance ⟨1, 100, 1, 0, 0, 7, []⟩ (by show (0:ℚ) < 7; norm_num)
    (monthlyRowAt 98 0) (by
      rw [computePlan_p7_eq]
      exact List.mem_cons_of_mem _ (List.mem_cons_self _ _)) rfl

/-- C4: no schedule row is negative and the adjusted balloon (the balloon
row's amount) is non-negative, in every branch. -/
theorem C4_nonneg (p : PlanInputs) (r : Row) (hr : r ∈ computePlan p) :
    0 ≤ r.amount := by
  have hnet : 0 ≤ netPrice p.area p.pricePerM2 := netPrice_nonneg _ _
  have hbV : 0 ≤ balloonValue (netPrice p.area p.pricePerM2) p.balloonPct :=
    balloonValue_nonneg hnet _
  simp only [computePlan] at hr
  rcases mem_schedule hr with h1 | h1 | h1
  · subst h1
    exact cappedInitial_nonneg _ _
  · obtain ⟨_, h2⟩ := mem_monthRows h1
    rcases h2 with ⟨_, hamt⟩ | ⟨_, e, he, _, hamt⟩
    · rw [hamt]
      exact (reconcile_nonneg _ _ (le_max_left _ _) hbV).1
    · rw [← hamt]
      rw [validExtras, List.mem_filter] at he
      have h3 := he.2
      simp only [isValidExtra, Bool.and_eq_true, decide_eq_true_eq] at h3
      exact h3.1.1.le
  · subst h1
    exact (reconcile_nonneg _ _ (le_max_left _ _) hbV).2

/-- Witness for C4: the initial row of the over-allocated plan. -/
theorem C4_nonneg_witness :
    0 ≤ (Row.mk RowType.initial "Cuota inicial" 0 100).amount :=
  C4_nonneg ⟨1, 100, 1, 50, 100, 0, []⟩ _ (by
    rw [computePlan_bug_eq, schedule_nil]
    exact List.mem_cons_self _ _)

/-- C6: the slot count `numMonthlyPayments` is `max(0, M − count(valid entries))`, counting
entries rather than distinct months; two valid entries on the same month
reduce the slot count by two (`12 − 2 = 10` in the concrete instance). -/
theorem C6_monthly_slot_count (months : ℤ) (extras : List Extra) :
    numMonthlyPayments (Mclamp months)
        (validExtras (orderedExtras extras) (Mclamp months)).length =
      max 0 (Mclamp months -
        (extras.countP fun e => isValidExtra (Mclamp months) e)) ∧
    numMonthlyPayments (Mclamp 12)
        (validExtras (orderedExtras [⟨5, 10⟩, ⟨5, 10⟩]) (Mclamp 12)).length = 10 := by
  constructor
  · have hlen : (validExtras (orderedExtras extras) (Mclamp months)).length =
        extras.countP fun e => isValidExtra (Mclamp months) e := by
      rw [validExtras, ← List.countP_eq_length_filter, orderedExtras,
        (List.mergeSort_perm _ _).countP_eq, List.countP_filter]
      apply List.countP_congr
      intro e _
      cases h1 : decide (e.amount > 0) <;> cases h2 : decide (e.month ≥ 1) <;>
        cases h3 : decide (e.month ≤ Mclamp months) <;>
          simp [isValidExtra, isCandidateExtra, h1, h2, h3]
    rw [hlen]
    rfl
  · have hfil : ([⟨5, 10⟩, ⟨5, 10⟩] : List Extra).filter isCandidateExtra =
        [⟨5, 10⟩, ⟨5, 10⟩] := by
      rw [List.filter_eq_self]
      intro e he
      rcases List.mem_cons.mp he with rfl | he2
      · exact isCandidateExtra_eval (by norm_num) (by norm_num)
      · rcases List.mem_cons.mp he2 with rfl | he3
        · exact isCandidateExtra_eval (by norm_num) (by norm_num)
        · simp at he3
    have hsort : orderedExtras [⟨5, 10⟩, ⟨5, 10⟩] = [⟨5, 10⟩, ⟨5, 10⟩] := by
      rw [orderedExtras, hfil]
      apply List.mergeSort_of_sorted
      simp [List.pairwise_cons]
    rw [hsort]
    have hval : validExtras [⟨5, 10⟩, ⟨5, 10⟩] (Mclamp 12) = [⟨5, 10⟩, ⟨5, 10⟩] := by
      rw [validExtras, List.filter_eq_self]
      intro e he
      rcases List.mem_cons.mp he with rfl | he2
      · exact isValidExtra_eval (by norm_num) (by norm_num) (by decide)
      · rcases List.mem_cons.mp he2 with rfl | he3
        · exact isValidExtra_eval (by norm_num) (by norm_num) (by decide)
        · simp at he3
    rw [hval]
    rfl

theorem orderedExtras_pair : orderedExtras [⟨1, 5⟩, ⟨1, 6⟩] = [⟨1, 5⟩, ⟨1, 6⟩] := by
  have hfil : ([⟨1, 5⟩, ⟨1, 6⟩] : List Extra).filter isCandidateExtra =
      [⟨1, 5⟩, ⟨1, 6⟩] := by
    rw [List.filter_eq_self]
    intro e he
    rcases List.mem_cons.mp he with rfl | he2
    · exact isCandidateExtra_eval (by norm_num) (by norm_num)
    · rcases List.mem_cons.mp he2 with rfl | he3
      · exact isCandidateExtra_eval (by norm_num) (by norm_num)
      · simp at he3
  rw [orderedExtras, hfil]
  apply List.mergeSort_of_sorted
  simp [List.pairwise_cons]

theorem validExtras_pair : validExtras [⟨1, 5⟩, ⟨1, 6⟩] (Mclamp 2) = [⟨1, 5⟩, ⟨1, 6⟩] := by
  rw [validExtras, List.filter_eq_self]
  intro e he
  rcases List.mem_cons.mp he with rfl | he2
  · exact isValidExtra_eval (by norm_num) (by norm_num) (by decide)
  · rcases List.mem_cons.mp he2 with rfl | he3
    · exact isValidExtra_eval (by norm_num) (by norm_num) (by decide)
    · simp at he3

/-- Evaluation of the plan with two month-1 extras on a two-month horizon:
both monthly slots are consumed by entry count, so the remaining month 2
still gets a monthly row of amount 0 and the balloon stays at its target. -/
theorem computePlan_p10_eq :
    computePlan ⟨1, 100, 2, 0, 0, 0, [⟨1, 5⟩, ⟨1, 6⟩]⟩ =
      [⟨RowType.initial, "Cuota inicial", 0, 0⟩,
        ⟨RowType.extra, "Extraordinaria (mes 1)", 1, 5⟩,
        ⟨RowType.extra, "Extraordinaria (mes 1)", 1, 6⟩,
        monthlyRowAt 0 1,
        ⟨RowType.balloon, "Última cuota (balloon)", 3, 0⟩] := by
  simp only [computePlan]
  rw [netPrice_1_100]
  rw [show cappedInitial 100 0 = 0 by
    norm_num [cappedInitial, clamp, min_def, max_def]]
  rw [show balloonValue 100 0 = 0 by
    norm_num [balloonValue, clamp, min_def, max_def]]
  rw [orderedExtras_pair]
  rfl

/-- C5: a month in `1..M` with at least one valid extraordinary entry gets one
"extra" row per matching entry and no "monthly" row; a month with none gets
exactly one "monthly" row. -/
theorem C5_exclusivity (p : PlanInputs) (m : ℤ)
    (h1 : 1 ≤ m) (h2 : m ≤ Mclamp p.months) :
    ((validExtras (orderedExtras p.extras) (Mclamp p.months)).countP
        (fun e => decide (e.month = m)) ≠ 0 →
      (computePlan p).countP
          (fun r => decide (r.type = RowType.monthly) && decide (r.month = m)) = 0 ∧
      (computePlan p).countP
          (fun r => decide (r.type = RowType.extra) && decide (r.month = m)) =
        (validExtras (orderedExtras p.extras) (Mclamp p.months)).countP
          (fun e => decide (e.month = m))) ∧
    ((validExtras (orderedExtras p.extras) (Mclamp p.months)).countP
        (fun e => decide (e.month = m)) = 0 →
      (computePlan p).countP
          (fun r => decide (r.type = RowType.monthly) && decide (r.month = m)) = 1) := by
  simp only [computePlan]
  rw [countP_schedule_monthly_at h1 h2, countP_schedule_extra_at h1 h2]
  constructor
  · intro hne
    have hni : ¬ ((validExtras (orderedExtras p.extras) (Mclamp p.months)).filter
        (fun e => decide (e.month = m))).isEmpty = true := by
      rw [List.isEmpty_iff]
      intro hcon
      rw [List.countP_eq_length_filter, hcon] at hne
      exact hne rfl
    rw [if_neg hni]
    exact ⟨rfl, rfl⟩
  · intro heq
    have hyi : ((validExtras (orderedExtras p.extras) (Mclamp p.months)).filter
        (fun e => decide (e.month = m))).isEmpty = true := by
      rw [List.isEmpty_iff]
      rw [List.countP_eq_length_filter] at heq
      exact List.length_eq_zero.mp heq
    rw [if_pos hyi]

/-- Witness for C5: month 2 of a three-month plan with one extra in month 2
gets no monthly row and as many extra rows as matching entries. -/
theorem C5_exclusivity_witness :
    (computePlan ⟨1, 100, 3, 0, 0, 0, [⟨2, 5⟩]⟩).countP
        (fun r => decide (r.type = RowType.monthly) && decide (r.month = 2)) = 0 ∧
    (computePlan ⟨1, 100, 3, 0, 0, 0, [⟨2, 5⟩]⟩).countP
        (fun r => decide (r.type = RowType.extra) && decide (r.month = 2)) =
      (validExtras (orderedExtras [⟨2, 5⟩]) (Mclamp 3)).countP
        (fun e => decide (e.month = 2)) :=
  (C5_exclusivity ⟨1, 100, 3, 0, 0, 0, [⟨2, 5⟩]⟩ 2 (by decide) (by decide)).1 (by
    show (validExtras (orderedExtras [⟨2, 5⟩]) (Mclamp 3)).countP
        (fun e => decide (e.month = 2)) ≠ 0
    rw [orderedExtras_single, validExtras_single]
    decide)

/-- C10: when the valid-entry count reaches the clamped month horizon,
the installment is 0 and the balloon stays at the unadjusted target, yet every
extra-free month in range still emits exactly one "monthly" row (of amount 0). -/
theorem C10_saturated_extras (p : PlanInputs)
    (h : Mclamp p.months ≤
      (validExtras (orderedExtras p.extras) (Mclamp p.months)).length) :
    (∀ r ∈ computePlan p, r.type = RowType.monthly → r.amount = 0) ∧
    (∀ r ∈ computePlan p, r.type = RowType.balloon →
      r.amount = balloonValue (netPrice p.area p.pricePerM2) p.balloonPct) ∧
    (∀ m : ℤ, 1 ≤ m → m ≤ Mclamp p.months →
      (validExtras (orderedExtras p.extras) (Mclamp p.months)).countP
          (fun e => decide (e.month = m)) = 0 →
      (computePlan p).countP
          (fun r => decide (r.type = RowType.monthly) && decide (r.month = m)) = 1) := by
  have hnum : ¬ (0 < numMonthlyPayments (Mclamp p.months)
      (validExtras (orderedExtras p.extras) (Mclamp p.months)).length) := by
    rw [numMonthlyPayments, not_lt]
    exact max_le le_rfl (by omega)
  refine ⟨?_, ?_, ?_⟩
  · intro r hr hm
    simp only [computePlan] at hr
    rcases mem_schedule hr with h1 | h1 | h1
    · subst h1
      simp at hm
    · obtain ⟨_, h2⟩ := mem_monthRows h1
      rcases h2 with ⟨_, hamt⟩ | ⟨hty, _⟩
      · rw [hamt, reconcile_of_nonpos _ _ _ hnum]
      · rw [hty] at hm
        simp at hm
    · subst h1
      simp at hm
  · intro r hr hb
    simp only [computePlan] at hr
    rcases mem_schedule hr with h1 | h1 | h1
    · subst h1
      simp at hb
    · obtain ⟨_, h2⟩ := mem_monthRows h1
      rcases h2 with ⟨hty, _⟩ | ⟨hty, _⟩ <;> (rw [hty] at hb; simp at hb)
    · subst h1
      dsimp only
      rw [reconcile_of_nonpos _ _ _ hnum]
  · intro m hm1 hm2 hcnt
    have hyi : ((validExtras (orderedExtras p.extras) (Mclamp p.months)).filter
        (fun e => decide (e.month = m))).isEmpty = true := by
      rw [List.isEmpty_iff]
      rw [List.countP_eq_length_filter] at hcnt
      exact List.length_eq_zero.mp hcnt
    simp only [computePlan]
    rw [countP_schedule_monthly_at hm1 hm2, if_pos hyi]

/-- Witness for C10: two valid entries both on month 1 of a two-month plan —
the month-2 monthly row carries 0, the balloon keeps the unadjusted target,
and month 2 still emits exactly one monthly row. -/
theorem C10_saturated_extras_witness :
    (monthlyRowAt 0 1).amount = 0 ∧
    (Row.mk RowType.balloon "Última cuota (balloon)" 3 0).amount =
      balloonValue (netPrice 1 100) 0 ∧
    (computePlan ⟨1, 100, 2, 0, 0, 0, [⟨1, 5⟩, ⟨1, 6⟩]⟩).countP
        (fun r => decide (r.type = RowType.monthly) && decide (r.month = 2)) = 1 := by
  have happ := C10_saturated_extras ⟨1, 100, 2, 0, 0, 0, [⟨1, 5⟩, ⟨1, 6⟩]⟩ (by
    show Mclamp 2 ≤ (validExtras (orderedExtras [⟨1, 5⟩, ⟨1, 6⟩]) (Mclamp 2)).length
    rw [orderedExtras_pair, validExtras_pair]
    decide)
  refine ⟨?_, ?_, ?_⟩
  · exact happ.1 (monthlyRowAt 0 1) (by
      rw [computePlan_p10_eq]
      exact List.mem_cons_of_mem _ (List.mem_cons_of_mem _ (List.mem_cons_of_mem _
        (List.mem_cons_self _ _)))) rfl
  · exact happ.2.1 _ (by
      rw [computePlan_p10_eq]
      exact List.mem_cons_of_mem _ (List.mem_cons_of_mem _ (List.mem_cons_of_mem _
        (List.mem_cons_of_mem _ (List.mem_cons_self _ _))))) rfl
  · exact happ.2.2 2 (by decide) (by decide) (by
      show (validExtras (orderedExtras [⟨1, 5⟩, ⟨1, 6⟩]) (Mclamp 2)).countP
          (fun e => decide (e.month = 2)) = 0
      rw [orderedExtras_pair, validExtras_pair]
      decide)

/-- C1 (conservation fails on the code): with `netPrice = 100`,
`initialPayment = 100` (capped to the full net price) and a 50% balloon, the
rows sum to 150 — off by 50 from `netPrice`, far beyond the one-unit
tolerance asserted by the spec and by the code's own console auto-test 1. -/
theorem C1_conservation_violated :
    (totals (computePlan ⟨1, 100, 1, 50, 100, 0, []⟩)).grand = 150 ∧
    netPrice 1 100 = 100 ∧
    1 < |(totals (computePlan ⟨1, 100, 1, 50, 100, 0, []⟩)).grand - netPrice 1 100| := by
  have hgrand : (totals (computePlan ⟨1, 100, 1, 50, 100, 0, []⟩)).grand = 150 := by
    rw [computePlan_bug_eq, totals_schedule_nil]
    rw [show baseForMonthly 100 100 50 0 = 0 by norm_num [baseForMonthly, max_def]]
    rw [show Mclamp 1 = 1 by decide]
    rw [show numMonthlyPayments 1 0 = 1 by decide]
    rw [reconcile_zero_base]
    norm_num
  refine ⟨hgrand, netPrice_1_100, ?_⟩
  rw [hgrand, netPrice_1_100]
  rw [show |(150:ℚ) - 100| = 50 by rw [abs_of_nonneg (by norm_num)]; norm_num]
  norm_num

/-- C7: Scenario A — `netPrice = 175,000,000`, `cappedInitial = 20,000,000`,
`balloonTarget = 43,750,000`, 36 months, no extras, granularity 0 gives
`baseForMonthly = 111,250,000`, installment `3,090,278`, monthly total
`111,250,008`, adjusted balloon `43,749,992`. -/
theorem C7_scenarioA :
    netPrice 500 350000 = 175000000 ∧
    baseForMonthly (netPrice 500 350000)
        (cappedInitial (netPrice 500 350000) 20000000)
        (balloonValue (netPrice 500 350000) 25) 0 = 111250000 ∧
    (reconcile 111250000 43750000 36 0).1 = 3090278 ∧
    (totals (computePlan ⟨500, 350000, 36, 25, 20000000, 0, []⟩)).monthlyTotal =
      111250008 ∧
    (totals (computePlan ⟨500, 350000, 36, 25, 20000000, 0, []⟩)).balloon =
      43749992 := by
  have hnet : netPrice 500 350000 = 175000000 := by
    norm_num [netPrice, negotiatedPrice, clamp, min_def, max_def]
  have hcap : cappedInitial 175000000 20000000 = 20000000 := by
    norm_num [cappedInitial, clamp, min_def, max_def]
  have hbal : balloonValue 175000000 25 = 43750000 := by
    norm_num [balloonValue, clamp, min_def, max_def]
  have hbase : baseForMonthly 175000000 20000000 43750000 0 = 111250000 := by
    norm_num [baseForMonthly, max_def]
  have hplan : computePlan ⟨500, 350000, 36, 25, 20000000, 0, []⟩ =
      schedule 175000000 20000000 43750000 36 [] 0 := by
    simp only [computePlan, orderedExtras_nil]
    rw [hnet, hcap, hbal]
  refine ⟨hnet, ?_, ?_, ?_, ?_⟩
  · rw [hnet, hcap, hbal]
    exact hbase
  · rw [reconcile_scenarioA]
  · rw [hplan, totals_schedule_nil, hbase, show Mclamp 36 = 36 by decide,
      show numMonthlyPayments 36 0 = 36 by decide, reconcile_scenarioA,
      show (36:ℤ).toNat = 36 from by decide]
    norm_num
  · rw [hplan, totals_schedule_nil, hbase, show Mclamp 36 = 36 by decide,
      show numMonthlyPayments 36 0 = 36 by decide, reconcile_scenarioA]

/-- C9: normalization of extraordinary entries — non-positive amounts and
months below 1 are dropped, the rest is sorted ascending by month with ties
keeping their input order (stated as: the sublist at each month key is
untouched), and at consumption time only the `month ≤ M` filter is applied
on top. -/
theorem C9_extras_normalization (extras : List Extra) (months : ℤ) :
    (orderedExtras extras).Pairwise (fun a b => a.month ≤ b.month) ∧
    (∀ k : ℤ, (orderedExtras extras).filter (fun e => decide (e.month = k)) =
      (extras.filter isCandidateExtra).filter (fun e => decide (e.month = k))) ∧
    validExtras (orderedExtras extras) (Mclamp months) =
      (orderedExtras extras).filter (fun e => decide (e.month ≤ Mclamp months)) := by
  have htrans : ∀ a b c : Extra, decide (a.month ≤ b.month) = true →
      decide (b.month ≤ c.month) = true → decide (a.month ≤ c.month) = true := by
    intro a b c hab hbc
    rw [decide_eq_true_eq] at *
    omega
  have htotal : ∀ a b : Extra,
      (decide (a.month ≤ b.month) || decide (b.month ≤ a.month)) = true := by
    intro a b
    rw [Bool.or_eq_true, decide_eq_true_eq, decide_eq_true_eq]
    omega
  refine ⟨?_, ?_, ?_⟩
  · have hs := List.sorted_mergeSort htrans htotal (extras.filter isCandidateExtra)
    rw [orderedExtras]
    exact hs.imp fun h => by rw [decide_eq_true_eq] at h; exact h
  · intro k
    set c := (extras.filter isCandidateExtra).filter (fun e => decide (e.month = k))
      with hc
    have hallk : ∀ x ∈ c, x.month = k := by
      intro x hx
      rw [hc, List.mem_filter] at hx
      simpa using hx.2
    have hcpair : c.Pairwise (fun a b => decide (a.month ≤ b.month) = true) := by
      have hgen : ∀ l : List Extra, (∀ x ∈ l, x.month = k) →
          l.Pairwise (fun a b => decide (a.month ≤ b.month) = true) := by
        intro l
        induction l with
        | nil => exact fun _ => List.Pairwise.nil
        | cons a t ih =>
          intro hall
          refine List.Pairwise.cons ?_ (ih fun x hx => hall x (List.mem_cons_of_mem _ hx))
          intro b hb
          rw [decide_eq_true_eq, hall a (List.mem_cons_self _ _),
            hall b (List.mem_cons_of_mem _ hb)]
      exact hgen c hallk
    have hsub : c.Sublist (extras.filter isCandidateExtra) := List.filter_sublist _
    have h1 : c.Sublist (orderedExtras extras) := by
      rw [orderedExtras]
      exact List.sublist_mergeSort htrans htotal hcpair hsub
    have h2 : ((orderedExtras extras).filter (fun e => decide (e.month = k))).Perm c := by
      rw [hc, orderedExtras]
      exact (List.mergeSort_perm _ _).filter _
    have h3 : c.Sublist ((orderedExtras extras).filter
        (fun e => decide (e.month = k))) := by
      have hcf : c.filter (fun e => decide (e.month = k)) = c := by
        rw [List.filter_eq_self]
        intro a ha
        exact decide_eq_true (hallk a ha)
      have hstep := h1.filter (fun e => decide (e.month = k))
      rw [hcf] at hstep
      exact hstep
    exact (h3.eq_of_length h2.length_eq.symm).symm
  · rw [validExtras]
    apply List.filter_congr
    intro e he
    have he' : isCandidateExtra e = true := by
      rw [orderedExtras, List.mem_mergeSort, List.mem_filter] at he
      exact he.2
    cases h1 : decide (e.amount > 0) <;> cases h2 : decide (e.month ≥ 1) <;>
      simp [isValidExtra, isCandidateExtra, h1, h2] at he' ⊢

/-- C8 counterexample: on a two-month no-extras plan anchored at month index
0, the balloon row (month 3) is dated at index 2 while the last regular
installment (month 2) is dated at index 1 — the balloon is NOT dated in the
same calendar month as the last installment, contrary to the claim's reading
of the offset. -/
theorem C8_balloon_date_counterexample :
    ((scheduleWithDates (computePlan ⟨1, 100, 2, 0, 0, 0, []⟩) 0).filter
        (fun x => decide (x.1.type = RowType.balloon))).map
          (fun x => (x.1.month, x.2)) = [((3:ℤ), (2:ℤ))] ∧
    ((scheduleWithDates (computePlan ⟨1, 100, 2, 0, 0, 0, []⟩) 0).filter
        (fun x => decide (x.1.type = RowType.monthly) &&
          decide (x.1.month = 2))).map
          (fun x => (x.1.month, x.2)) = [((2:ℤ), (1:ℤ))] ∧
    (2 : ℤ) ≠ 1 := by
  rw [computePlan_dates_eq]
  refine ⟨?_, ?_, by decide⟩ <;>
    simp [scheduleWithDates, monthlyRowAt, addMonths, List.filter_cons]

/-- C8 amended: every row is dated `anchor + max(0, month − 1)`; the initial
row at the anchor, month `m` at `anchor + (m − 1)`, and the balloon at offset
`financingMonths` — one calendar month AFTER the last regular installment
(which sits at offset `financingMonths − 1`), not in the same month. -/
theorem C8_dates_amended (p : PlanInputs) (base : ℤ) (x : Row × ℤ)
    (hx : x ∈ scheduleWithDates (computePlan p) base) :
    x.2 = addMonths base (max 0 (x.1.month - 1)) ∧
    (x.1.type = RowType.initial → x.2 = base) ∧
    (x.1.type = RowType.monthly → x.2 = base + (x.1.month - 1)) ∧
    (x.1.type = RowType.balloon → x.2 = base + Mclamp p.months) := by
  rw [scheduleWithDates, List.mem_map] at hx
  obtain ⟨r, hr, rfl⟩ := hx
  simp only [computePlan] at hr
  have hf := schedule_row_fields hr
  refine ⟨rfl, ?_, ?_, ?_⟩
  · intro hh
    have hm := hf.1 hh
    show addMonths base (max 0 (r.month - 1)) = base
    rw [addMonths, hm, show max 0 ((0:ℤ) - 1) = 0 from by decide, add_zero]
  · intro hh
    obtain ⟨hm1, _⟩ := hf.2.1 hh
    show addMonths base (max 0 (r.month - 1)) = base + (r.month - 1)
    rw [addMonths, max_eq_right (by omega : (0:ℤ) ≤ r.month - 1)]
  · intro hh
    have hm := hf.2.2.2 hh
    have hM : (1:ℤ) ≤ Mclamp p.months := le_max_left _ _
    show addMonths base (max 0 (r.month - 1)) = base + Mclamp p.months
    rw [addMonths, hm, show Mclamp p.months + 1 - 1 = Mclamp p.months from by ring,
      max_eq_right (by omega)]

/-- Witness for the amended C8: the balloon row of the two-month plan is
dated at index 2, that is anchor 0 plus the full horizon `Mclamp 2 = 2` —
one month after the month-2 installment's index 1. -/
theorem C8_dates_amended_witness : (2:ℤ) = 0 + Mclamp 2 :=
  (C8_dates_amended ⟨1, 100, 2, 0, 0, 0, []⟩ 0
    ⟨⟨RowType.balloon, "Última cuota (balloon)", 3, 0⟩, 2⟩ (by
      rw [computePlan_dates_eq, scheduleWithDates]
      apply List.mem_map.mpr
      refine ⟨⟨RowType.balloon, "Última cuota (balloon)", 3, 0⟩, ?_, ?_⟩
      · exact List.mem_cons_of_mem _ (List.mem_cons_of_mem _
          (List.mem_cons_of_mem _ (List.mem_cons_self _ _)))
      · show (_, addMonths 0 (max 0 ((3:ℤ) - 1))) = _
        rw [show addMonths 0 (max 0 ((3:ℤ) - 1)) = 2 from by decide])).2.2.2 rfl

end Manameli
